import Mathlib

/-!
  Verification development for the preference-persistence layer of the
  WeatherItBetter repository (`src/agents/preference_agent.py`,
  `scripts/push_preferences.py`) and the calendar activity classifier
  (`src/agents/activity_agent.py`).

  The Python code is shallowly embedded: strings are `List Char` (Python
  `str`), Python `dict` (insertion ordered) is an association list with
  in-place value update, and every fallible operation is a total Lean
  function (with `Except` where a Python exception can escape).  The remote
  Vertex AI Memory Bank service is an external collaborator: its retrieval
  outcome is a parameter (`Except` of a list of results) and its write
  endpoint is represented by the record the code would send to it.
-/

/-- Python strings, embedded as lists of characters. -/
abbrev Str := List Char

/-- Python `str.startswith`: `strStartsWith s p` is true iff `p` is a prefix of `s`. -/
def strStartsWith : Str → Str → Bool
  | _, [] => true
  | [], _ :: _ => false
  | a :: as, b :: bs => a == b && strStartsWith as bs

/-- Python substring containment `needle in hay`. -/
def strContainsSub : Str → Str → Bool
  | hay, needle =>
    if strStartsWith hay needle then true
    else
      match hay with
      | [] => false
      | _ :: t => strContainsSub t needle

/-- Python `str.lower` (ASCII case folding, which covers every string the
program compares case-insensitively). -/
def lowerStr (s : Str) : Str := s.map Char.toLower

/-- Python `dict` assignment `d[k] = v` on an insertion-ordered association
list: an existing key keeps its position and gets the new value, a new key
is appended at the end. -/
def dictInsert {α β : Type} [DecidableEq α] : List (α × β) → α → β → List (α × β)
  | [], k, v => [(k, v)]
  | (k', v') :: rest, k, v =>
    if k' = k then (k', v) :: rest else (k', v') :: dictInsert rest k v

/-- Python `d[k]` / `d.get(k)`: first (and, for dict-shaped lists, only)
binding of key `k`. -/
def dictGet {α β : Type} [DecidableEq α] : List (α × β) → α → Option β
  | [], _ => none
  | (k', v') :: rest, k => if k' = k then some v' else dictGet rest k

/-- Python `d.keys()` in order. -/
def dictKeys {α β : Type} (d : List (α × β)) : List α := d.map Prod.fst

/-- Python `d.values()` in order. -/
def dictValues {α β : Type} (d : List (α × β)) : List β := d.map Prod.snd

/-- Python `d.update(u)`: assign every binding of `u` into `d`, in order. -/
def dictUpdate {α β : Type} [DecidableEq α] (d u : List (α × β)) : List (α × β) :=
  u.foldl (fun acc kv => dictInsert acc kv.1 kv.2) d

/-- A well-formed dict: each key occurs at most once. -/
def keysNodup {α β : Type} (d : List (α × β)) : Prop := (dictKeys d).Nodup

/-- The ASCII digit character for `d < 10`. -/
def decDigit (d : Nat) : Char := Char.ofNat (48 + d)

/-- Decimal digits of `n`, most significant first, given enough fuel
(`fuel > n` always suffices). -/
def natDecFuel : Nat → Nat → Str
  | 0, _ => []
  | fuel + 1, n =>
    if n < 10 then [decDigit n]
    else natDecFuel fuel (n / 10) ++ [decDigit (n % 10)]

/-- Python `f"{n}"` for a natural number: its decimal digit string. -/
def natDecimal (n : Nat) : Str := natDecFuel (n + 1) n

/-- Value of a decimal digit string (left fold), used to invert `natDecimal`. -/
def decVal (s : Str) : Nat := s.foldl (fun acc c => acc * 10 + (c.toNat - 48)) 0

theorem decVal_append_digit (s : Str) (c : Char) :
    decVal (s ++ [c]) = decVal s * 10 + (c.toNat - 48) := by
  simp [decVal, List.foldl_append]

theorem toNat_decDigit {d : Nat} (h : d < 10) : (decDigit d).toNat = 48 + d := by
  interval_cases d <;> decide

theorem decVal_natDecFuel {fuel n : Nat} (h : n < fuel) :
    decVal (natDecFuel fuel n) = n := by
  induction fuel generalizing n with
  | zero => omega
  | succ fuel ih =>
    by_cases h10 : n < 10
    · simp [natDecFuel, h10, decVal, toNat_decDigit h10]
    · have hdiv : n / 10 < fuel := by omega
      simp [natDecFuel, h10, decVal_append_digit, ih hdiv,
        toNat_decDigit (Nat.mod_lt n (by omega))]
      omega

theorem decVal_natDecimal (n : Nat) : decVal (natDecimal n) = n :=
  decVal_natDecFuel (Nat.lt_succ_self n)

theorem natDecimal_injective : Function.Injective natDecimal := by
  intro a b h
  have := decVal_natDecimal a
  rw [h, decVal_natDecimal] at this
  omega

/-- The synthetic key `f"pref_{n}"` used by both `add_preference` and
`load_from_memory_bank`. -/
def synthKey (n : Nat) : Str := ("pref_".data) ++ natDecimal n

theorem synthKey_injective : Function.Injective synthKey := by
  intro a b h
  exact natDecimal_injective (List.append_cancel_left h)

example : synthKey 12 = ("pref_12".data) := by decide
example : strContainsSub ("I prefer warm".data) ("prefer".data) = true := by decide
example : strContainsSub ("nothing here".data) ("prefer".data) = false := by decide
example : strStartsWith ("pref_x".data) ("pref_".data) = true := by decide
example : lowerStr ("CaSual".data) = ("casual".data) := by decide

theorem mem_dictKeys {α β : Type} {d : List (α × β)} {k : α} :
    k ∈ dictKeys d ↔ ∃ v, (k, v) ∈ d := by
  simp [dictKeys]

section DictLemmas

variable {α β : Type} [DecidableEq α]

theorem dictGet_dictInsert (d : List (α × β)) (k k' : α) (v : β) :
    dictGet (dictInsert d k v) k' = if k = k' then some v else dictGet d k' := by
  induction d with
  | nil => simp [dictInsert, dictGet]
  | cons hd tl ih =>
    obtain ⟨k0, v0⟩ := hd
    by_cases h0 : k0 = k
    · subst h0
      by_cases h1 : k0 = k' <;> simp [dictInsert, dictGet, h1]
    · by_cases h1 : k0 = k'
      · subst h1
        have hne : ¬ k = k0 := fun hh => h0 hh.symm
        simp [dictInsert, dictGet, h0, hne]
      · simp [dictInsert, dictGet, h0, h1, ih]

theorem dictInsert_eq_append {d : List (α × β)} {k : α} (v : β)
    (h : k ∉ dictKeys d) : dictInsert d k v = d ++ [(k, v)] := by
  induction d with
  | nil => simp [dictInsert]
  | cons hd tl ih =>
    obtain ⟨k0, v0⟩ := hd
    have h1 : ¬ k0 = k := by
      intro hh
      exact h (by unfold dictKeys; simp [hh])
    have h2 : k ∉ dictKeys tl := by
      intro hh
      apply h
      unfold dictKeys at hh ⊢
      simp only [List.map_cons, List.mem_cons]
      exact Or.inr hh
    simp [dictInsert, h1, ih h2]

theorem mem_dictKeys_dictInsert {d : List (α × β)} {k x : α} {v : β}
    (h : x ∈ dictKeys (dictInsert d k v)) : x ∈ dictKeys d ∨ x = k := by
  induction d with
  | nil =>
    unfold dictKeys dictInsert at h
    simp at h
    exact Or.inr h
  | cons hd tl ih =>
    obtain ⟨k0, v0⟩ := hd
    by_cases h0 : k0 = k
    · unfold dictInsert dictKeys at h
      rw [if_pos h0] at h
      simp at h
      unfold dictKeys
      rcases h with h | h
      · exact Or.inl (by simp [h])
      · exact Or.inl (by simp; exact Or.inr h)
    · unfold dictInsert dictKeys at h
      rw [if_neg h0] at h
      simp at h
      rcases h with h | h
      · exact Or.inl (by unfold dictKeys; simp [h])
      · rcases ih (by unfold dictKeys; simpa using h) with hh | hh
        · exact Or.inl (by unfold dictKeys at hh ⊢; simp; right; simpa using hh)
        · exact Or.inr hh

theorem keysNodup_dictInsert {d : List (α × β)} (k : α) (v : β)
    (h : keysNodup d) : keysNodup (dictInsert d k v) := by
  induction d with
  | nil => simp [keysNodup, dictInsert, dictKeys]
  | cons hd tl ih =>
    obtain ⟨k0, v0⟩ := hd
    unfold keysNodup dictKeys at h
    simp only [List.map_cons, List.nodup_cons] at h
    by_cases h0 : k0 = k
    · unfold keysNodup dictInsert dictKeys
      rw [if_pos h0]
      simp only [List.map_cons, List.nodup_cons]
      exact h
    · unfold keysNodup dictInsert dictKeys
      rw [if_neg h0]
      simp only [List.map_cons, List.nodup_cons]
      constructor
      · intro hmem
        rcases mem_dictKeys_dictInsert (by unfold dictKeys; simpa using hmem) with hh | hh
        · exact h.1 (by unfold dictKeys at hh; simpa using hh)
        · exact h0 hh
      · exact ih h.2

theorem dictGet_dictUpdate_not_mem (d u : List (α × β)) (k : α)
    (h : k ∉ dictKeys u) : dictGet (dictUpdate d u) k = dictGet d k := by
  induction u generalizing d with
  | nil => simp [dictUpdate]
  | cons hd tl ih =>
    obtain ⟨k0, v0⟩ := hd
    have h1 : ¬ k0 = k := by
      intro hh
      exact h (by unfold dictKeys; simp [hh])
    have h2 : k ∉ dictKeys tl := by
      intro hh
      apply h
      unfold dictKeys at hh ⊢
      simp only [List.map_cons, List.mem_cons]
      exact Or.inr hh
    have step : dictUpdate d ((k0, v0) :: tl) = dictUpdate (dictInsert d k0 v0) tl := rfl
    rw [step, ih _ h2, dictGet_dictInsert]
    simp [h1]

theorem dictGet_dictUpdate_mem (d u : List (α × β)) (k : α) (v : β)
    (hnd : keysNodup u) (h : dictGet u k = some v) :
    dictGet (dictUpdate d u) k = some v := by
  induction u generalizing d with
  | nil => simp [dictGet] at h
  | cons hd tl ih =>
    obtain ⟨k0, v0⟩ := hd
    have hnd' : k0 ∉ dictKeys tl ∧ keysNodup tl := by
      unfold keysNodup dictKeys at hnd ⊢
      simpa using hnd
    have step : dictUpdate d ((k0, v0) :: tl) = dictUpdate (dictInsert d k0 v0) tl := rfl
    by_cases h0 : k0 = k
    · subst h0
      rw [show dictGet ((k0, v0) :: tl) k0 = some v0 from by simp [dictGet]] at h
      injection h with h
      subst h
      rw [step, dictGet_dictUpdate_not_mem _ _ _ hnd'.1, dictGet_dictInsert]
      simp
    · rw [show dictGet ((k0, v0) :: tl) k = dictGet tl k from by simp [dictGet, h0]] at h
      rw [step]
      exact ih _ hnd'.2 h

theorem dictUpdate_eq_append {d u : List (α × β)}
    (hdis : ∀ x ∈ dictKeys u, x ∉ dictKeys d) (hnd : keysNodup u) :
    dictUpdate d u = d ++ u := by
  induction u generalizing d with
  | nil => simp [dictUpdate]
  | cons hd tl ih =>
    obtain ⟨k0, v0⟩ := hd
    have hnd' : k0 ∉ dictKeys tl ∧ keysNodup tl := by
      unfold keysNodup dictKeys at hnd ⊢
      simpa using hnd
    have hk0 : k0 ∉ dictKeys d := hdis k0 (by unfold dictKeys; simp)
    have step : dictUpdate d ((k0, v0) :: tl) = dictUpdate (dictInsert d k0 v0) tl := rfl
    rw [step, ih (d := dictInsert d k0 v0) ?_ hnd'.2]
    · rw [dictInsert_eq_append v0 hk0]
      simp
    · intro x hx
      rw [dictInsert_eq_append v0 hk0]
      unfold dictKeys
      simp only [List.map_append, List.map_cons, List.map_nil, List.mem_append,
        List.mem_singleton]
      rintro (hxd | hxk)
      · have hx' : x ∈ dictKeys ((k0, v0) :: tl) := by
          unfold dictKeys at hx ⊢
          simp only [List.map_cons, List.mem_cons]
          exact Or.inr hx
        exact hdis x hx' hxd
      · subst hxk
        exact hnd'.1 hx

theorem dictUpdate_nil_left (u : List (α × β)) (hnd : keysNodup u) :
    dictUpdate ([] : List (α × β)) u = u := by
  rw [dictUpdate_eq_append (by unfold dictKeys; simp) hnd]
  simp

end DictLemmas

/-! ## JSON text layer

`_load_preferences_from_file` / `_save_preferences_to_file` go through
`json.load` / `json.dump(..., indent=2)`.  We embed the relevant fragment of
the `json` stdlib: serialization of a `str -> str` dict with `indent=2` and
`ensure_ascii` escaping, and parsing of JSON objects whose values are
strings (the only shape this program ever writes; any other or malformed
text parses to `none`).  Lone surrogate `\uXXXX` escapes are rejected by the
embedded parser since a Lean `Char` is a unicode scalar value. -/

/-- Lowercase hex digit for `n < 16` (as emitted by `json.dump`). -/
def hexDigit (n : Nat) : Char :=
  if n < 10 then Char.ofNat (48 + n) else Char.ofNat (87 + n)

/-- Four lowercase hex digits of `n < 0x10000`, most significant first. -/
def hex4Enc (n : Nat) : Str :=
  [hexDigit (n / 4096 % 16), hexDigit (n / 256 % 16), hexDigit (n / 16 % 16), hexDigit (n % 16)]

/-- `ensure_ascii` JSON escaping of one character
(CPython `json.encoder.py_encode_basestring_ascii`). -/
def encodeChar (c : Char) : Str :=
  if c = '"' then ['\\', '"']
  else if c = '\\' then ['\\', '\\']
  else if c = '\n' then ['\\', 'n']
  else if c = '\r' then ['\\', 'r']
  else if c = '\t' then ['\\', 't']
  else if c.toNat = 8 then ['\\', 'b']
  else if c.toNat = 12 then ['\\', 'f']
  else if c.toNat < 32 ∨ 127 ≤ c.toNat then
    if c.toNat < 65536 then '\\' :: 'u' :: hex4Enc c.toNat
    else
      ('\\' :: 'u' :: hex4Enc (55296 + (c.toNat - 65536) / 1024)) ++
        ('\\' :: 'u' :: hex4Enc (56320 + (c.toNat - 65536) % 1024))
  else [c]

/-- JSON escaping of a whole string (content between the quotes). -/
def escapeString (s : Str) : Str := s.flatMap encodeChar

/-- A serialized JSON string, quotes included. -/
def dumpStr (s : Str) : Str := '"' :: (escapeString s ++ ['"'])

/-- One `indent=2` object member: newline, two-space indent, key, `": "`,
value, followed by `tail` (either `,` and the next member or the final
newline). -/
def entryChunk (k v : Str) (tail : Str) : Str :=
  '\n' :: ' ' :: ' ' :: '"' ::
    (escapeString k ++ '"' :: ':' :: ' ' :: '"' :: (escapeString v ++ '"' :: tail))

/-- The members of a nonempty object as `json.dump(..., indent=2)` lays them
out (everything between the braces). -/
def dumpMembers : List (Str × Str) → Str
  | [] => []
  | (k, v) :: rest =>
    entryChunk k v (match rest with
      | [] => ['\n']
      | _ :: _ => ',' :: dumpMembers rest)

/-- `json.dump(m, f, indent=2)` for a `str -> str` dict `m`. -/
def jsonDumpObj (m : List (Str × Str)) : Str :=
  match m with
  | [] => ['\x7b', '\x7d']
  | _ :: _ => '\x7b' :: (dumpMembers m ++ ['\x7d'])

/-- Numeric value of a hex digit character (either case), as accepted by the
JSON `\uXXXX` escape. -/
def hexVal (c : Char) : Option Nat :=
  if 48 ≤ c.toNat ∧ c.toNat ≤ 57 then some (c.toNat - 48)
  else if 97 ≤ c.toNat ∧ c.toNat ≤ 102 then some (c.toNat - 87)
  else if 65 ≤ c.toNat ∧ c.toNat ≤ 70 then some (c.toNat - 55)
  else none

/-- Combine four hex digits into their value. -/
def hex4 (a b c d : Char) : Option Nat :=
  match hexVal a, hexVal b, hexVal c, hexVal d with
  | some x, some y, some z, some w => some (((x * 16 + y) * 16 + z) * 16 + w)
  | _, _, _, _ => none

/-- Prepend a decoded character to the result of parsing the rest of a
string body. -/
def consParsed (c : Char) (r : Option (Str × Str)) : Option (Str × Str) :=
  r.map (fun p => (c :: p.1, p.2))

/-- After a `\\uXXXX` escape holding a high surrogate `n`, decode the
required low-surrogate escape `\\uXXXX` and combine the pair. -/
def decodeLowSurrogate (n : Nat) (r : Str) : Option (Char × Str) :=
  match r with
  | e1 :: e2 :: a :: b :: c :: d :: r3 =>
    if e1 = '\\' then
      if e2 = 'u' then
        match hex4 a b c d with
        | some m =>
          if 56320 ≤ m ∧ m ≤ 57343 then
            some (Char.ofNat (65536 + (n - 55296) * 1024 + (m - 56320)), r3)
          else none
        | none => none
      else none
    else none
  | _ => none

/-- Decode a `\\u` escape (the four hex digits and, for a high surrogate,
the paired low-surrogate escape).  A lone surrogate is a parse failure. -/
def decodeUEscape (r : Str) : Option (Char × Str) :=
  match r with
  | a :: b :: c :: d :: r2 =>
    match hex4 a b c d with
    | none => none
    | some n =>
      if 55296 ≤ n ∧ n ≤ 56319 then decodeLowSurrogate n r2
      else if 56320 ≤ n ∧ n ≤ 57343 then none
      else some (Char.ofNat n, r2)
  | _ => none

/-- Decode one JSON string escape (the backslash already consumed):
the decoded character and the remaining input. -/
def decodeEscape (r : Str) : Option (Char × Str) :=
  match r with
  | [] => none
  | e :: r1 =>
    if e = '"' then some ('"', r1)
    else if e = '\\' then some ('\\', r1)
    else if e = '/' then some ('/', r1)
    else if e = 'b' then some (Char.ofNat 8, r1)
    else if e = 'f' then some (Char.ofNat 12, r1)
    else if e = 'n' then some ('\n', r1)
    else if e = 'r' then some ('\r', r1)
    else if e = 't' then some ('\t', r1)
    else if e = 'u' then decodeUEscape r1
    else none

/-- Parse the body of a JSON string (the opening quote already consumed),
returning the decoded content and the input after the closing quote.
Mirrors CPython `json.scanner.py_scanstring` in strict mode, except that a
lone surrogate escape is a parse failure rather than a lone-surrogate
character (a Lean `Char` is a unicode scalar value).  `fuel` bounds the
number of decoded characters; `input.length + 1` always suffices. -/
def parseJStringBodyFuel : Nat → Str → Option (Str × Str)
  | 0, _ => none
  | fuel + 1, s =>
    match s with
    | [] => none
    | c :: rest =>
      if c = '"' then some ([], rest)
      else if c = '\\' then
        match decodeEscape rest with
        | none => none
        | some (ch, r) => consParsed ch (parseJStringBodyFuel fuel r)
      else if c.toNat < 32 then none
      else consParsed c (parseJStringBodyFuel fuel rest)

/-- Parse a JSON string body with always-sufficient fuel. -/
def parseJString (s : Str) : Option (Str × Str) :=
  parseJStringBodyFuel (s.length + 1) s

/-- Skip JSON whitespace. -/
def skipWs : Str → Str
  | [] => []
  | c :: rest =>
    if c = ' ' ∨ c = '\n' ∨ c = '\t' ∨ c = '\r' then skipWs rest else c :: rest

/-- A JSON value as `json.load` produces it.  A number is kept as its
literal token text (Python turns it into an `int`/`float`, a conversion no
claim depends on and whose floating-point side is outside this embedding);
the nonstandard constants `NaN`/`Infinity`/`-Infinity`, which CPython
accepts by default, are number tokens too. -/
inductive Jval : Type
  | null
  | bool (b : Bool)
  | num (lit : Str)
  | str (s : Str)
  | arr (items : List Jval)
  | obj (members : List (Str × Jval))

/-- Strip the exact literal `lit` from the front of `s`. -/
def expectLit : Str → Str → Option Str
  | [], s => some s
  | _ :: _, [] => none
  | l :: ls, c :: cs => if c = l then expectLit ls cs else none

/-- Longest prefix of ASCII digits, and the rest. -/
def digitSpan : Str → Str × Str
  | [] => ([], [])
  | c :: r =>
    if c.isDigit then
      let p := digitSpan r
      (c :: p.1, p.2)
    else ([], c :: r)

/-- A digit string that JSON forbids as an integer part: more than one
digit starting with `0`. -/
def leadingZero : Str → Bool
  | c :: _ :: _ => c = '0'
  | _ => false

/-- A JSON number token (RFC 8259 grammar: int, optional fraction,
optional exponent, optional leading minus), plus CPython's `-Infinity`;
returns the literal text and the rest.  As in CPython's scanner, a dot or
exponent marker not followed by digits fails (the text can then never
continue with a valid delimiter, so the overall verdict matches). -/
def parseJNumber (s : Str) : Option (Str × Str) :=
  let pNeg : Str × Str := match s with
    | c :: r => if c = '-' then ([c], r) else ([], s)
    | [] => ([], [])
  match pNeg.2 with
  | [] => none
  | c :: r =>
    if c = 'I' then
      (expectLit ("nfinity".data) r).map (fun rest => (pNeg.1 ++ ("Infinity".data), rest))
    else if c.isDigit then
      let pInt := digitSpan (c :: r)
      if leadingZero pInt.1 then none
      else
        let pFrac : Option (Str × Str) := match pInt.2 with
          | c2 :: r2 =>
            if c2 = '.' then
              let p := digitSpan r2
              if p.1.isEmpty then none else some (c2 :: p.1, p.2)
            else some ([], pInt.2)
          | [] => some ([], [])
        match pFrac with
        | none => none
        | some (ftext, r3) =>
          let pExp : Option (Str × Str) := match r3 with
            | c3 :: r4 =>
              if c3 = 'e' ∨ c3 = 'E' then
                match r4 with
                | c4 :: r5 =>
                  if c4 = '+' ∨ c4 = '-' then
                    let p := digitSpan r5
                    if p.1.isEmpty then none else some (c3 :: c4 :: p.1, p.2)
                  else
                    let p := digitSpan r4
                    if p.1.isEmpty then none else some (c3 :: p.1, p.2)
                | [] => none
              else some ([], r3)
            | [] => some ([], [])
          match pExp with
          | none => none
          | some (etext, r6) => some (pNeg.1 ++ pInt.1 ++ ftext ++ etext, r6)
    else none

/-- Dispatch on the first non-whitespace character of a scalar JSON value:
the keyword constants (`true`, `false`, `null`, and CPython's `NaN` /
`Infinity`) or a number token. -/
def parseJsonScalar (c : Char) (r : Str) : Option (Jval × Str) :=
  if c = 't' then (expectLit ("rue".data) r).map (fun rest => (Jval.bool true, rest))
  else if c = 'f' then (expectLit ("alse".data) r).map (fun rest => (Jval.bool false, rest))
  else if c = 'n' then (expectLit ("ull".data) r).map (fun rest => (Jval.null, rest))
  else if c = 'N' then (expectLit ("aN".data) r).map (fun rest => (Jval.num ("NaN".data), rest))
  else if c = 'I' then
    (expectLit ("nfinity".data) r).map (fun rest => (Jval.num ("Infinity".data), rest))
  else (parseJNumber (c :: r)).map (fun p => (Jval.num p.1, p.2))

/-- The items of a nonempty JSON array, positioned at the first item;
`parseVal` parses one value (and skips its leading whitespace itself). -/
def arrItemsLoop (parseVal : Str → Option (Jval × Str)) :
    Nat → Str → List Jval → Option (List Jval × Str)
  | 0, _, _ => none
  | fuel + 1, s, acc =>
    match parseVal s with
    | none => none
    | some (v, r) =>
      match skipWs r with
      | [] => none
      | c :: r2 =>
        if c = ',' then arrItemsLoop parseVal fuel r2 (acc ++ [v])
        else if c = ']' then some (acc ++ [v], r2)
        else none

/-- The members of a nonempty JSON object, positioned at the opening quote
of a key; `acc` is the object built so far (duplicate keys resolve
last-wins, as in `json.load`).  Returns the members and the input after the
closing brace. -/
def objMembersLoop (parseVal : Str → Option (Jval × Str)) :
    Nat → Str → List (Str × Jval) → Option (List (Str × Jval) × Str)
  | 0, _, _ => none
  | fuel + 1, s, acc =>
    match s with
    | [] => none
    | c :: r0 =>
      if c = '"' then
        match parseJString r0 with
        | none => none
        | some (k, r1) =>
          match skipWs r1 with
          | [] => none
          | c2 :: r2 =>
            if c2 = ':' then
              match parseVal r2 with
              | none => none
              | some (v, r4) =>
                match skipWs r4 with
                | [] => none
                | c5 :: r5 =>
                  if c5 = ',' then objMembersLoop parseVal fuel (skipWs r5) (dictInsert acc k v)
                  else if c5 = '}' then some (dictInsert acc k v, r5)
                  else none
            else none
      else none

/-- Parse one JSON value (leading whitespace skipped), mirroring CPython's
`json.scanner.py_make_scanner` dispatch.  `fuel` bounds the recursion
depth and loop steps; since every nested value and every member strictly
consumes input before recursing, `input.length + 1` is always enough. -/
def parseJValueFuel : Nat → Str → Option (Jval × Str)
  | 0, _ => none
  | fuel + 1, s =>
    match skipWs s with
    | [] => none
    | c :: r =>
      if c = '"' then (parseJString r).map (fun p => (Jval.str p.1, p.2))
      else if c = '\x7b' then
        match skipWs r with
        | [] => none
        | c2 :: r2 =>
          if c2 = '\x7d' then some (.obj [], r2)
          else (objMembersLoop (parseJValueFuel fuel) fuel (c2 :: r2) []).map
            (fun p => (Jval.obj p.1, p.2))
      else if c = '[' then
        match skipWs r with
        | [] => none
        | c2 :: r2 =>
          if c2 = ']' then some (.arr [], r2)
          else (arrItemsLoop (parseJValueFuel fuel) fuel (c2 :: r2) []).map
            (fun p => (Jval.arr p.1, p.2))
      else parseJsonScalar c r

/-- `json.load` on decoded text: one JSON value followed by only
whitespace (trailing data is an error), `none` for `json.JSONDecodeError`.
The one representational divergence is inherited from `parseJString`: a
lone-surrogate `\uXXXX` escape is a parse failure here, where CPython
builds a string containing the lone surrogate (not a Lean `Char`). -/
def parseJson (s : Str) : Option Jval :=
  match parseJValueFuel (s.length + 1) s with
  | some (v, rest) => if skipWs rest = [] then some v else none
  | none => none

/-- Extract the string values of object members, failing on the first
non-string value. -/
def strMembers : List (Str × Jval) → Option (List (Str × Str))
  | [] => some []
  | (k, Jval.str v) :: rest => (strMembers rest).map (fun m => (k, v) :: m)
  | _ => none

/-- View a JSON value as the `str -> str` mapping the program's type
annotations promise, when it is one. -/
def asStrObj : Jval → Option (List (Str × Str))
  | .obj members => strMembers members
  | _ => none

example : jsonDumpObj [] = ['\x7b', '\x7d'] := by decide
example : parseJson ("\x7b\x7d".data) = some (.obj []) := rfl
example : parseJson (" \x7b \"a\" : \"b\" \x7d ".data) = some (.obj [(['a'], .str ['b'])]) := rfl
example : parseJson ("corrupt".data) = none := rfl
example : parseJson ("[1, 2]".data) =
    some (.arr [.num ("1".data), .num ("2".data)]) := rfl
example : parseJson ("\x7b\"a\": 1\x7d".data) =
    some (.obj [(['a'], .num ['1'])]) := rfl
example : parseJson ("null".data) = some .null := rfl
example : parseJson ("-12.5e+3".data) = some (.num ("-12.5e+3".data)) := rfl
example : parseJson ("01".data) = none := rfl
example : parseJson ("\x7b\x7d extra".data) = none := rfl
example : (parseJson (jsonDumpObj [(("style".data), ("casual".data))])).map asStrObj =
    some (some [(("style".data), ("casual".data))]) := rfl
example : (parseJson (jsonDumpObj [(['"', '\\', '\n'],
      [Char.ofNat 1, Char.ofNat 128, Char.ofNat 120000])])).map asStrObj =
    some (some [(['"', '\\', '\n'], [Char.ofNat 1, Char.ofNat 128, Char.ofNat 120000])]) := rfl

/-! ## Local file store and PreferenceManager state -/

/-- A Python exception escaping an embedded operation. -/
inductive PyError : Type
  /-- `UnicodeDecodeError` (a `ValueError`): the file's bytes do not decode
  in the text encoding.  It is not in the `except (json.JSONDecodeError,
  IOError)` clause of `_load_preferences_from_file`, so it propagates. -/
  | unicodeDecodeError : PyError
deriving DecidableEq, Repr

/-- State of the backing preferences file. -/
inductive FileState : Type
  /-- `storage_path.exists()` is false. -/
  | absent : FileState
  /-- The file exists but `open`/`read` raises `IOError`. -/
  | unreadable : FileState
  /-- The file exists and its bytes do not decode as text, so reading it
  raises `UnicodeDecodeError`. -/
  | undecodable : FileState
  /-- The file exists and holds the decoded text `raw`. -/
  | content (raw : Str) : FileState
deriving DecidableEq, Repr

/-- What `_load_preferences_from_file` returns when it does not raise:
whatever `json.load` produced.  `mapping` is the well-typed view (a JSON
object all of whose values are strings — the only thing this program ever
writes); `other` is any other successfully parsed JSON value, which the
function returns verbatim despite its `Dict[str, str]` annotation. -/
inductive LoadResult : Type
  | mapping (m : List (Str × Str))
  | other (v : Jval)

/-- `PreferenceManager._load_preferences_from_file`: if the file exists,
`json.load` it and return the result, treating `json.JSONDecodeError` and
`IOError` as "no data" (`{}`); a successfully parsed value that is not a
string-to-string object (e.g. `[1, 2]` or `\x7b"a": 1\x7d`) is returned
as-is, not replaced by `{}`; a `UnicodeDecodeError` raised while reading
the text is caught by neither `except` clause and escapes. -/
def load_preferences_from_file : FileState → Except PyError LoadResult
  | .absent => .ok (.mapping [])
  | .unreadable => .ok (.mapping [])
  | .undecodable => .error .unicodeDecodeError
  | .content raw =>
    match parseJson raw with
    | none => .ok (.mapping [])
    | some v =>
      match asStrObj v with
      | some m => .ok (.mapping m)
      | none => .ok (.other v)

/-- `PreferenceManager._save_preferences_to_file`: overwrite the file with
`json.dump(self.preferences, f, indent=2)`; an `IOError` is logged and
swallowed, leaving the file as it was. -/
def save_preferences_to_file (prefs : List (Str × Str)) (writable : Bool)
    (fs : FileState) : FileState :=
  if writable then .content (jsonDumpObj prefs) else fs

/-- The synthetic two-turn exchange `_save_to_memory_bank` (and the push
script) submit to the remote fact-generation endpoint. -/
structure RemoteWrite : Type where
  user_message : Str
  assistant_message : Str
deriving DecidableEq, Repr

/-- `f"Please remember this about my clothing preferences: {value}"` and
`f"Got it! I'll remember that you {value}. I'll use this when making outfit
recommendations."`. -/
def mkRemoteWrite (value : Str) : RemoteWrite :=
  { user_message := ("Please remember this about my clothing preferences: ".data) ++ value
    assistant_message :=
      ("Got it! I'll remember that you ".data) ++ value ++
        (". I'll use this when making outfit recommendations.".data) }

/-- The mutable attributes of a `PreferenceManager` that the embedded
operations read or write, plus the environment facts they depend on
(whether the local file accepts writes, whether Vertex AI was configured
and the memory service object exists). -/
structure PMState : Type where
  preferences : List (Str × Str)
  fileState : FileState
  file_writable : Bool
  use_vertex_ai : Bool
  has_memory_service : Bool
  preferences_loaded_from : Str
deriving DecidableEq, Repr

/-- `PreferenceManager._save_to_memory_bank` reduced to the remote write it
dispatches: `none` when it returns without calling the fact-generation
endpoint (Vertex AI off, no service object, or the generic-preference
filter `"remember my clothing preferences" in preference_value.lower()`
fires). -/
def save_to_memory_bank_write (use_vertex_ai has_memory_service : Bool)
    (preference_value : Str) : Option RemoteWrite :=
  if !use_vertex_ai || !has_memory_service then none
  else if strContainsSub (lowerStr preference_value)
      ("remember my clothing preferences".data) then none
  else some (mkRemoteWrite preference_value)

/-- `push_preference` in `scripts/push_preferences.py`, reduced to the
remote write it performs: it skips any value containing the generic marker
and otherwise submits the same two-turn exchange. -/
def push_preference_write (preference_value : Str) : Option RemoteWrite :=
  if strContainsSub (lowerStr preference_value)
      ("remember my clothing preferences".data) then none
  else some (mkRemoteWrite preference_value)

/-- `PreferenceManager.add_preference(key, value)`: auto-generate
`f"pref_{len(self.preferences) + 1}"` when `key.startswith("pref_")`,
store in memory, save the file, then best-effort dispatch the remote write
(returned here alongside the new state; it never affects the local
outcome). -/
def add_preference (st : PMState) (key value : Str) : PMState × Option RemoteWrite :=
  let pref_id :=
    if strStartsWith key ("pref_".data) then synthKey (st.preferences.length + 1) else key
  let prefs := dictInsert st.preferences pref_id value
  ({ st with
      preferences := prefs
      fileState := save_preferences_to_file prefs st.file_writable st.fileState },
   if st.use_vertex_ai then
     save_to_memory_bank_write st.use_vertex_ai st.has_memory_service value
   else none)

/-- `PreferenceManager.get_all_preferences`: `self.preferences.copy()`
(contents of the fresh copy; the aliasing side is modelled separately on a
heap, see `PMHeapState`). -/
def get_all_preferences (st : PMState) : List (Str × Str) := st.preferences

/-- `PreferenceManager.get_preference_list`: `list(self.preferences.values())`. -/
def get_preference_list (st : PMState) : List Str := dictValues st.preferences

/-- `PreferenceManager.clear_preferences`: reset the in-memory dict and
write the empty dict to the file.  The returned list is the (empty) batch
of remote operations it performs. -/
def clear_preferences (st : PMState) : PMState × List RemoteWrite :=
  ({ st with
      preferences := []
      fileState := save_preferences_to_file [] st.file_writable st.fileState },
   [])

/-- One result yielded by the remote `memories.retrieve` call:
`some fact_text` when `result.memory.fact` (or `result.fact`) is a string,
`none` when the nested attribute access raises `AttributeError`/`TypeError`
or the fact is `None`. -/
def RemoteResult : Type := Option Str

/-- The filter on line 332 of `preference_agent.py`:
`'prefer' in fact_text.lower() or 'style' in ... or 'casual' in ... or
'formal' in ...`. -/
def looksLikePreference (t : Str) : Bool :=
  strContainsSub (lowerStr t) ("prefer".data) ||
    strContainsSub (lowerStr t) ("style".data) ||
    strContainsSub (lowerStr t) ("casual".data) ||
    strContainsSub (lowerStr t) ("formal".data)

/-- The fact-merging loop of `load_from_memory_bank`: walk the retrieval
results, skip malformed ones, and for each fact that is truthy and looks
like a preference, assign `f"pref_{len(loaded_prefs) + 1}"` and store it in
`loaded_prefs` (the accumulator `acc`). -/
def mergeFactsAux : List RemoteResult → List (Str × Str) → List (Str × Str)
  | [], acc => acc
  | none :: rest, acc => mergeFactsAux rest acc
  | some t :: rest, acc =>
    if !t.isEmpty && looksLikePreference t then
      mergeFactsAux rest (dictInsert acc (synthKey (acc.length + 1)) t)
    else mergeFactsAux rest acc

/-- The `loaded_prefs` dict built by `load_from_memory_bank` from the
retrieval results. -/
def mergeFacts (results : List RemoteResult) : List (Str × Str) :=
  mergeFactsAux results []

/-- `PreferenceManager.load_from_memory_bank`, with the outcome of the
remote `memories.retrieve` call passed in (`.error` for any exception it
raises).  Returns the updated state and the `loaded_prefs` return value;
every exception is caught, so the embedding is total. -/
def load_from_memory_bank (st : PMState) (retrieval : Except Unit (List RemoteResult)) :
    PMState × List (Str × Str) :=
  if !st.use_vertex_ai || !st.has_memory_service then (st, [])
  else
    match retrieval with
    | .error _ => (st, [])
    | .ok results =>
      let loaded := mergeFacts results
      if loaded.isEmpty then (st, loaded)
      else
        let prefs := dictUpdate st.preferences loaded
        ({ st with
            preferences := prefs
            fileState := save_preferences_to_file prefs st.file_writable st.fileState },
         loaded)

/-- `PreferenceManager.initialize_memory_bank` (the `sync()` entry point):
load from the memory bank and record the source attribution —
`"vertex_ai_memory_bank"` only when `loaded_prefs` was nonempty, else
`"local_file"`.  Returns without touching attribution when Vertex AI is off
or there is no service object. -/
def init_memory_bank (st : PMState) (retrieval : Except Unit (List RemoteResult)) : PMState :=
  if !st.use_vertex_ai || !st.has_memory_service then st
  else
    let res := load_from_memory_bank st retrieval
    if res.2.isEmpty then
      { res.1 with preferences_loaded_from := ("local_file".data) }
    else
      { res.1 with preferences_loaded_from := ("vertex_ai_memory_bank".data) }

/-! ## Activity classifier (`src/agents/activity_agent.py`) -/

/-- A calendar event as handed to `ActivityDetector.analyze_event`
(`event.get(...)` returns the default for a missing field, modelled by
`Option`). -/
structure CalEvent : Type where
  summary : Option Str
  location : Option Str
  start : Option Str
deriving DecidableEq, Repr

/-- The record returned by `ActivityDetector.analyze_event`. -/
structure ActivityAnalysis : Type where
  title : Str
  start_time : Str
  raw_location : Str
  location_type : Str
  formality : Str
  is_exercise : Bool
  is_outdoor : Bool
deriving DecidableEq, Repr

/-- Python `any(word in hay for word in words)`. -/
def anyWordIn (words : List Str) (hay : Str) : Bool :=
  words.any (fun w => strContainsSub hay w)

/-- `ActivityDetector.analyze_event`: fixed keyword matching on the
lowercased summary and location. -/
def analyze_event (event : CalEvent) : ActivityAnalysis :=
  let summary := lowerStr (event.summary.getD [])
  let location := lowerStr (event.location.getD [])
  let location_type :=
    if anyWordIn [("park".data), ("outdoor".data), ("trail".data), ("beach".data)] location then
      ("outdoor".data)
    else if anyWordIn [("office".data), ("workplace".data)] location then ("office".data)
    else if anyWordIn [("home".data), ("house".data)] location then ("home".data)
    else ("indoor".data)
  let formality :=
    if anyWordIn [("meeting".data), ("presentation".data), ("interview".data), ("client".data)]
        summary then ("formal".data)
    else if anyWordIn [("work".data), ("office".data), ("business".data)] summary then
      ("business_casual".data)
    else ("casual".data)
  let is_exercise :=
    anyWordIn [("gym".data), ("workout".data), ("run".data), ("exercise".data), ("yoga".data),
      ("fitness".data)] summary
  let is_outdoor :=
    location_type = ("outdoor".data) ||
      anyWordIn [("outdoor".data), ("outside".data), ("park".data), ("hike".data)] summary
  { title := event.summary.getD ("Event".data)
    start_time := event.start.getD []
    raw_location := event.location.getD []
    location_type := location_type
    formality := formality
    is_exercise := is_exercise
    is_outdoor := is_outdoor }

/-! ## Heap view for `get_all_preferences`

`get_all_preferences` returns `self.preferences.copy()`.  Whether the
caller can corrupt the manager's state through the returned object is an
aliasing question, so this one method is additionally modelled on an
explicit heap: dict objects live at numbered references, `copy()`
allocates a fresh reference, and a caller mutation is an arbitrary
in-place overwrite of the returned reference's contents. -/

/-- A `PreferenceManager` together with the heap of dict objects: the
manager's `self.preferences` is the object at `prefsRef`; `nextRef` is the
next unused address (every live reference is below it). -/
structure PMHeapState : Type where
  prefsRef : Nat
  heap : List (Nat × List (Str × Str))
  fileState : FileState
  nextRef : Nat
deriving DecidableEq, Repr

/-- `get_all_preferences` on the heap: `self.preferences.copy()` allocates
a fresh object with the same contents and returns its reference.  (If the
method returned `self.preferences` itself, this embedding would return
`st.prefsRef` instead.) -/
def get_all_preferences_heap (st : PMHeapState) : PMHeapState × Nat :=
  let contents := (dictGet st.heap st.prefsRef).getD []
  ({ st with
      heap := dictInsert st.heap st.nextRef contents
      nextRef := st.nextRef + 1 },
   st.nextRef)

/-- An arbitrary caller-side in-place mutation of the dict object at `r`
(any number of assignments, deletions, `clear`, ... amounts to replacing
its contents). -/
def mutateRef (st : PMHeapState) (r : Nat) (newContents : List (Str × Str)) : PMHeapState :=
  { st with heap := dictInsert st.heap r newContents }

/-- `get_preference_list` as seen on the heap. -/
def get_preference_list_heap (st : PMHeapState) : List Str :=
  dictValues ((dictGet st.heap st.prefsRef).getD [])

/-! ## Claim theorems -/

/-- Claim C3: a preference value containing "remember my clothing
preferences" in any letter case is never dispatched to the remote
fact-generation endpoint: `_save_to_memory_bank` returns without the remote
call, the push script's `push_preference` skips it, and `add_preference`'s
best-effort remote step therefore performs no write. -/
theorem generic_preference_never_dispatched (uv hs : Bool) (st : PMState) (key value : Str)
    (h : strContainsSub (lowerStr value) ("remember my clothing preferences".data) = true) :
    save_to_memory_bank_write uv hs value = none ∧
    push_preference_write value = none ∧
    (add_preference st key value).2 = none := by
  refine ⟨?_, ?_, ?_⟩
  · cases uv <;> cases hs <;> simp [save_to_memory_bank_write, h]
  · simp [push_preference_write, h]
  · cases huv : st.use_vertex_ai <;>
      cases hhs : st.has_memory_service <;>
      simp [add_preference, save_to_memory_bank_write, h, huv, hhs]

/-- Witness for C3 at a concrete mixed-case value. -/
theorem generic_preference_never_dispatched_witness :
    strContainsSub (lowerStr ("please Remember my CLOTHING preferences".data))
      ("remember my clothing preferences".data) = true ∧
    save_to_memory_bank_write true true ("please Remember my CLOTHING preferences".data) = none ∧
    push_preference_write ("please Remember my CLOTHING preferences".data) = none ∧
    (add_preference ⟨[], .absent, false, true, true, ("local_file".data)⟩ ("style".data)
      ("please Remember my CLOTHING preferences".data)).2 = none :=
  ⟨by decide,
   (generic_preference_never_dispatched true true
      ⟨[], .absent, false, true, true, ("local_file".data)⟩ ("style".data) _ (by decide)).1,
   (generic_preference_never_dispatched true true
      ⟨[], .absent, false, true, true, ("local_file".data)⟩ ("style".data) _ (by decide)).2.1,
   (generic_preference_never_dispatched true true
      ⟨[], .absent, false, true, true, ("local_file".data)⟩ ("style".data) _ (by decide)).2.2⟩

/-- Claim C2 as stated is false: the auto-generated key is
`pref_{len(preferences) + 1}`, not a monotonically increasing counter, so
from the store `{"pref_2": "old"}` two successive `add_preference("pref_", ...)`
calls both generate the key `pref_2`; the first value is lost and only one
auto-generated key exists. -/
theorem add_auto_key_collision_counterexample :
    ((add_preference
        ((add_preference ⟨[(("pref_2".data), ("old".data))], .absent, false, false, false,
            ("local_file".data)⟩
          ("pref_".data) ("v1".data)).1)
        ("pref_".data) ("v2".data)).1).preferences =
      [(("pref_2".data), ("v2".data))] ∧
    ("v1".data) ∉ get_preference_list
      ((add_preference
        ((add_preference ⟨[(("pref_2".data), ("old".data))], .absent, false, false, false,
            ("local_file".data)⟩
          ("pref_".data) ("v1".data)).1)
        ("pref_".data) ("v2".data)).1) := by
  decide

/-- Claim C2, amended: a key starting with `pref_` is replaced by
`pref_{n+1}` where `n` is the current size of the in-memory dict (a
transient count, not a persistent counter).  Provided the two keys so
generated are not already present — in particular from any store with no
colliding `pref_N` key, such as the empty store — two successive
`add_preference("pref_", ...)` calls append two distinct auto-generated
entries and both values appear in `get_preference_list`.  Explicit keys
(those not starting with `pref_`) are used verbatim, and re-adding such a
key overwrites its value in place. -/
theorem add_auto_key_fresh (st : PMState) (v1 v2 : Str)
    (h1 : synthKey (st.preferences.length + 1) ∉ dictKeys st.preferences)
    (h2 : synthKey (st.preferences.length + 2) ∉ dictKeys st.preferences) :
    ((add_preference ((add_preference st ("pref_".data) v1).1) ("pref_".data) v2).1).preferences =
      st.preferences ++ [(synthKey (st.preferences.length + 1), v1),
        (synthKey (st.preferences.length + 2), v2)] ∧
    get_preference_list ((add_preference ((add_preference st ("pref_".data) v1).1)
        ("pref_".data) v2).1) =
      get_preference_list st ++ [v1, v2] ∧
    (∀ key v, strStartsWith key ("pref_".data) = false →
      ((add_preference st key v).1).preferences = dictInsert st.preferences key v ∧
      dictGet (((add_preference ((add_preference st key v).1) key v2).1).preferences) key =
        some v2) := by
  have hsw : strStartsWith ("pref_".data) ("pref_".data) = true := by decide
  have step1 : ((add_preference st ("pref_".data) v1).1).preferences =
      st.preferences ++ [(synthKey (st.preferences.length + 1), v1)] := by
    simp [add_preference, hsw, dictInsert_eq_append _ h1]
  have len1 : ((add_preference st ("pref_".data) v1).1).preferences.length =
      st.preferences.length + 1 := by
    rw [step1]; simp
  have hfresh2 : synthKey (st.preferences.length + 2) ∉
      dictKeys (((add_preference st ("pref_".data) v1).1).preferences) := by
    rw [step1]
    unfold dictKeys
    simp only [List.map_append, List.map_cons, List.map_nil, List.mem_append,
      List.mem_cons, List.not_mem_nil, or_false]
    rintro (hmem | hcoll)
    · exact h2 hmem
    · have := synthKey_injective hcoll
      omega
  have step2 : ((add_preference ((add_preference st ("pref_".data) v1).1)
      ("pref_".data) v2).1).preferences =
      st.preferences ++ [(synthKey (st.preferences.length + 1), v1),
        (synthKey (st.preferences.length + 2), v2)] := by
    conv_lhs => rw [show ((add_preference ((add_preference st ("pref_".data) v1).1)
        ("pref_".data) v2).1).preferences =
      dictInsert (((add_preference st ("pref_".data) v1).1).preferences)
        (synthKey (((add_preference st ("pref_".data) v1).1).preferences.length + 1)) v2 from by
        simp [add_preference, hsw]]
    rw [len1, dictInsert_eq_append _ hfresh2, step1]
    simp
  refine ⟨step2, ?_, ?_⟩
  · unfold get_preference_list dictValues
    rw [step2]
    simp
  · intro key v hkey
    have hne : strStartsWith key ("pref_".data) ≠ true := by simp [hkey]
    constructor
    · simp [add_preference, hne]
    · simp only [add_preference, hne, if_neg, Bool.not_eq_true]
      simp [hkey, dictGet_dictInsert]

/-- Witness for the amended C2 at the empty store. -/
theorem add_auto_key_fresh_witness :
    synthKey 1 ∉ dictKeys ([] : List (Str × Str)) ∧
    ((add_preference ((add_preference ⟨[], .absent, false, false, false, ("local_file".data)⟩
        ("pref_".data) ("v1".data)).1) ("pref_".data) ("v2".data)).1).preferences =
      [(("pref_1".data), ("v1".data)), (("pref_2".data), ("v2".data))] :=
  ⟨by decide, by
    have h := (add_auto_key_fresh ⟨[], .absent, false, false, false, ("local_file".data)⟩
      ("v1".data) ("v2".data) (by decide) (by decide)).1
    simpa using h.trans (by decide)⟩

/-- Claim C9: activity classification is the pure function `analyze_event`
of one event record; its `location_type` always lies in
`{outdoor, office, home, indoor}` and its `formality` in
`{formal, business_casual, casual}`, with `indoor` and `casual` as the
defaults when none of the fixed case-insensitive keyword substring tests on
the event's location/summary text match (first matching rule wins, no
scoring; `is_exercise` and `is_outdoor` are booleans by type). -/
theorem analyze_event_classification (event : CalEvent) :
    ((analyze_event event).location_type = ("outdoor".data) ∨
      (analyze_event event).location_type = ("office".data) ∨
      (analyze_event event).location_type = ("home".data) ∨
      (analyze_event event).location_type = ("indoor".data)) ∧
    ((analyze_event event).formality = ("formal".data) ∨
      (analyze_event event).formality = ("business_casual".data) ∨
      (analyze_event event).formality = ("casual".data)) ∧
    (anyWordIn [("park".data), ("outdoor".data), ("trail".data), ("beach".data)]
        (lowerStr (event.location.getD [])) = false →
      anyWordIn [("office".data), ("workplace".data)] (lowerStr (event.location.getD [])) = false →
      anyWordIn [("home".data), ("house".data)] (lowerStr (event.location.getD [])) = false →
      (analyze_event event).location_type = ("indoor".data)) ∧
    (anyWordIn [("meeting".data), ("presentation".data), ("interview".data), ("client".data)]
        (lowerStr (event.summary.getD [])) = false →
      anyWordIn [("work".data), ("office".data), ("business".data)]
        (lowerStr (event.summary.getD [])) = false →
      (analyze_event event).formality = ("casual".data)) := by
  refine ⟨?_, ?_, ?_, ?_⟩
  · simp only [analyze_event]
    split_ifs <;> simp
  · simp only [analyze_event]
    split_ifs <;> simp
  · intro hA hB hC
    simp only [analyze_event, hA, hB, hC]
    simp
  · intro hA hB
    simp only [analyze_event, hA, hB]
    simp

/-- Witness for C9 at a keyword-free event. -/
theorem analyze_event_classification_witness :
    (analyze_event ⟨some ("Lunch".data), some ("Cafe".data), none⟩).location_type =
      ("indoor".data) ∧
    (analyze_event ⟨some ("Lunch".data), some ("Cafe".data), none⟩).formality =
      ("casual".data) :=
  ⟨(analyze_event_classification ⟨some ("Lunch".data), some ("Cafe".data), none⟩).2.2.1
      (by decide) (by decide) (by decide),
   (analyze_event_classification ⟨some ("Lunch".data), some ("Cafe".data), none⟩).2.2.2
      (by decide) (by decide)⟩

/-- Claim C10: `get_all_preferences` returns `self.preferences.copy()`, a
freshly allocated object distinct from the manager's own dict; overwriting
the returned object's contents in any way leaves the manager's internal
dict, every subsequent `get_preference_list`, and the backing file
untouched. -/
theorem get_all_preferences_defensive_copy (st : PMHeapState)
    (newContents : List (Str × Str)) (hwf : st.prefsRef < st.nextRef) :
    (get_all_preferences_heap st).2 ≠ st.prefsRef ∧
    dictGet ((get_all_preferences_heap st).1.heap) ((get_all_preferences_heap st).2) =
      some ((dictGet st.heap st.prefsRef).getD []) ∧
    dictGet ((mutateRef (get_all_preferences_heap st).1 ((get_all_preferences_heap st).2)
        newContents).heap) st.prefsRef = dictGet st.heap st.prefsRef ∧
    get_preference_list_heap (mutateRef (get_all_preferences_heap st).1
        ((get_all_preferences_heap st).2) newContents) = get_preference_list_heap st ∧
    (mutateRef (get_all_preferences_heap st).1 ((get_all_preferences_heap st).2)
        newContents).fileState = st.fileState := by
  have hne : st.nextRef ≠ st.prefsRef := by omega
  have hgetPrefs : dictGet ((mutateRef (get_all_preferences_heap st).1
      ((get_all_preferences_heap st).2) newContents).heap) st.prefsRef =
      dictGet st.heap st.prefsRef := by
    simp only [mutateRef, get_all_preferences_heap]
    rw [dictGet_dictInsert, dictGet_dictInsert]
    simp [hne]
  refine ⟨by simpa [get_all_preferences_heap] using hne, ?_, hgetPrefs, ?_, by rfl⟩
  · simp only [get_all_preferences_heap]
    rw [dictGet_dictInsert]
    simp
  · unfold get_preference_list_heap
    rw [show (mutateRef (get_all_preferences_heap st).1 ((get_all_preferences_heap st).2)
        newContents).prefsRef = st.prefsRef from rfl]
    rw [hgetPrefs]

/-- Witness for C10 at a one-entry heap. -/
theorem get_all_preferences_defensive_copy_witness :
    (0 : Nat) < 1 ∧
    get_preference_list_heap (mutateRef
        (get_all_preferences_heap ⟨0, [(0, [(("style".data), ("casual".data))])], .absent, 1⟩).1
        ((get_all_preferences_heap
          ⟨0, [(0, [(("style".data), ("casual".data))])], .absent, 1⟩).2) []) =
      get_preference_list_heap ⟨0, [(0, [(("style".data), ("casual".data))])], .absent, 1⟩ :=
  ⟨by decide,
   (get_all_preferences_defensive_copy ⟨0, [(0, [(("style".data), ("casual".data))])], .absent, 1⟩
      [] (by decide)).2.2.2.1⟩

/-- Claim C8: `clear_preferences` empties the in-memory dict, writes the
empty mapping to the local file (which then loads back as empty), performs
no remote-memory operation, and afterwards `get_preference_list` is empty. -/
theorem clear_preferences_spec (st : PMState) (hw : st.file_writable = true) :
    ((clear_preferences st).1).preferences = [] ∧
    (clear_preferences st).2 = [] ∧
    ((clear_preferences st).1).fileState = .content (jsonDumpObj []) ∧
    load_preferences_from_file (((clear_preferences st).1).fileState) = .ok (.mapping []) ∧
    get_preference_list ((clear_preferences st).1) = [] := by
  have hfs : ((clear_preferences st).1).fileState = .content (jsonDumpObj []) := by
    simp [clear_preferences, save_preferences_to_file, hw]
  refine ⟨rfl, rfl, hfs, ?_, rfl⟩
  rw [hfs]
  rfl

/-- Witness for C8: the end-to-end scenario — empty store, then
`add_preference("temp_preference", "prefers Celsius")`, then
`clear_preferences`. -/
theorem clear_preferences_spec_witness :
    get_preference_list ((add_preference ⟨[], .absent, true, false, false, ("local_file".data)⟩
        ("temp_preference".data) ("prefers Celsius".data)).1) = [("prefers Celsius".data)] ∧
    ((clear_preferences ((add_preference ⟨[], .absent, true, false, false, ("local_file".data)⟩
        ("temp_preference".data) ("prefers Celsius".data)).1)).1).preferences = [] ∧
    (clear_preferences ((add_preference ⟨[], .absent, true, false, false, ("local_file".data)⟩
        ("temp_preference".data) ("prefers Celsius".data)).1)).2 = [] ∧
    get_preference_list ((clear_preferences ((add_preference
        ⟨[], .absent, true, false, false, ("local_file".data)⟩
        ("temp_preference".data) ("prefers Celsius".data)).1)).1) = [] ∧
    load_preferences_from_file (((clear_preferences ((add_preference
        ⟨[], .absent, true, false, false, ("local_file".data)⟩
        ("temp_preference".data) ("prefers Celsius".data)).1)).1).fileState) =
      .ok (.mapping []) :=
  ⟨by decide,
   (clear_preferences_spec ((add_preference ⟨[], .absent, true, false, false, ("local_file".data)⟩
      ("temp_preference".data) ("prefers Celsius".data)).1) (by decide)).1,
   (clear_preferences_spec ((add_preference ⟨[], .absent, true, false, false, ("local_file".data)⟩
      ("temp_preference".data) ("prefers Celsius".data)).1) (by decide)).2.1,
   (clear_preferences_spec ((add_preference ⟨[], .absent, true, false, false, ("local_file".data)⟩
      ("temp_preference".data) ("prefers Celsius".data)).1) (by decide)).2.2.2.2,
   (clear_preferences_spec ((add_preference ⟨[], .absent, true, false, false, ("local_file".data)⟩
      ("temp_preference".data) ("prefers Celsius".data)).1) (by decide)).2.2.2.1⟩

/-- Claim C4: when the remote retrieval raises, `sync`
(`initialize_memory_bank`) completes (the embedding is a total function),
leaves the in-memory mapping and file untouched, and the source attribution
stays `local_file`; attribution becomes `vertex_ai_memory_bank` only when
the merge produced at least one fact. -/
theorem sync_remote_failure_fallback (st : PMState)
    (retrieval : Except Unit (List RemoteResult))
    (hsrc : st.preferences_loaded_from = ("local_file".data)) :
    (init_memory_bank st (.error ())).preferences = st.preferences ∧
    (init_memory_bank st (.error ())).preferences_loaded_from = ("local_file".data) ∧
    (init_memory_bank st (.error ())).fileState = st.fileState ∧
    ((init_memory_bank st retrieval).preferences_loaded_from =
        ("vertex_ai_memory_bank".data) →
      ∃ results, retrieval = .ok results ∧ mergeFacts results ≠ []) := by
  have hne : ¬ (("local_file".data) = ("vertex_ai_memory_bank".data)) := by decide
  cases huv : st.use_vertex_ai with
  | false =>
    have hg : ∀ r, init_memory_bank st r = st := by
      intro r
      simp [init_memory_bank, huv]
    refine ⟨by rw [hg], by rw [hg, hsrc], by rw [hg], ?_⟩
    intro h
    rw [hg, hsrc] at h
    exact absurd h hne
  | true =>
    cases hhs : st.has_memory_service with
    | false =>
      have hg : ∀ r, init_memory_bank st r = st := by
        intro r
        simp [init_memory_bank, huv, hhs]
      refine ⟨by rw [hg], by rw [hg, hsrc], by rw [hg], ?_⟩
      intro h
      rw [hg, hsrc] at h
      exact absurd h hne
    | true =>
      have herr : init_memory_bank st (.error ()) =
          { st with preferences_loaded_from := ("local_file".data) } := by
        simp [init_memory_bank, load_from_memory_bank, huv, hhs]
      refine ⟨by rw [herr], by rw [herr], by rw [herr], ?_⟩
      cases retrieval with
      | error e =>
        intro h
        obtain ⟨⟩ := e
        rw [herr] at h
        exact absurd h hne
      | ok results =>
        intro h
        by_cases hm : (mergeFacts results).isEmpty = true
        · exfalso
          have hok : init_memory_bank st (.ok results) =
              { st with preferences_loaded_from := ("local_file".data) } := by
            simp [init_memory_bank, load_from_memory_bank, huv, hhs, hm]
          rw [hok] at h
          exact hne h
        · exact ⟨results, rfl, by simpa [List.isEmpty_iff] using hm⟩

/-- Witness for C4 at a concrete store and a failing retrieval. -/
theorem sync_remote_failure_fallback_witness :
    (init_memory_bank ⟨[(("style".data), ("casual".data))], .absent, true, true, true,
        ("local_file".data)⟩ (.error ())).preferences =
      [(("style".data), ("casual".data))] ∧
    (init_memory_bank ⟨[(("style".data), ("casual".data))], .absent, true, true, true,
        ("local_file".data)⟩ (.error ())).preferences_loaded_from = ("local_file".data) :=
  ⟨(sync_remote_failure_fallback ⟨[(("style".data), ("casual".data))], .absent, true, true, true,
      ("local_file".data)⟩ (.error ()) (by decide)).1,
   (sync_remote_failure_fallback ⟨[(("style".data), ("casual".data))], .absent, true, true, true,
      ("local_file".data)⟩ (.error ()) (by decide)).2.1⟩

/-! ## Shape of the merge pass -/

/-- Enumerate accepted facts with synthetic keys `pref_start, pref_{start+1}, ...`. -/
def withSynthKeys (start : Nat) : List Str → List (Str × Str)
  | [] => []
  | t :: rest => (synthKey start, t) :: withSynthKeys (start + 1) rest

theorem mem_dictKeys_withSynthKeys {start : Nat} {L : List Str} {x : Str}
    (h : x ∈ dictKeys (withSynthKeys start L)) :
    ∃ i, i < L.length ∧ x = synthKey (start + i) := by
  induction L generalizing start with
  | nil => simp [withSynthKeys, dictKeys] at h
  | cons t rest ih =>
    unfold withSynthKeys dictKeys at h
    simp only [List.map_cons, List.mem_cons] at h
    rcases h with h | h
    · exact ⟨0, by simp, by simpa using h⟩
    · obtain ⟨i, hi, hx⟩ := ih (by unfold dictKeys; simpa using h)
      exact ⟨i + 1, by simpa using hi, by rw [hx]; ring_nf⟩

theorem keysNodup_withSynthKeys (start : Nat) (L : List Str) :
    keysNodup (withSynthKeys start L) := by
  induction L generalizing start with
  | nil => simp [withSynthKeys, keysNodup, dictKeys]
  | cons t rest ih =>
    unfold keysNodup withSynthKeys dictKeys
    simp only [List.map_cons, List.nodup_cons]
    constructor
    · intro hmem
      obtain ⟨i, _, hx⟩ := mem_dictKeys_withSynthKeys
        (by unfold dictKeys; simpa using hmem)
      have := synthKey_injective hx
      omega
    · exact ih (start + 1)

theorem withSynthKeys_snoc (start : Nat) (L : List Str) (t : Str) :
    withSynthKeys start (L ++ [t]) =
      withSynthKeys start L ++ [(synthKey (start + L.length), t)] := by
  induction L generalizing start with
  | nil => simp [withSynthKeys]
  | cons s rest ih =>
    unfold withSynthKeys
    simp only [List.cons_append, List.length_cons]
    rw [show withSynthKeys (start + 1) (rest ++ [t]) =
        withSynthKeys (start + 1) rest ++ [(synthKey (start + 1 + rest.length), t)] from ih _]
    ring_nf

theorem length_withSynthKeys (start : Nat) (L : List Str) :
    (withSynthKeys start L).length = L.length := by
  induction L generalizing start with
  | nil => rfl
  | cons t rest ih =>
    unfold withSynthKeys
    simp [ih]

theorem looksLikePreference_nil : looksLikePreference [] = false := by decide

/-- The facts the merge loop accepts, in retrieval order. -/
def acceptedFacts (results : List RemoteResult) : List Str :=
  (results.filterMap id).filter looksLikePreference

theorem mergeFactsAux_cons_none (rest : List RemoteResult) (acc : List (Str × Str)) :
    mergeFactsAux (none :: rest) acc = mergeFactsAux rest acc := rfl

theorem mergeFactsAux_cons_some (t : Str) (rest : List RemoteResult)
    (acc : List (Str × Str)) :
    mergeFactsAux (some t :: rest) acc =
      if !t.isEmpty && looksLikePreference t then
        mergeFactsAux rest (dictInsert acc (synthKey (acc.length + 1)) t)
      else mergeFactsAux rest acc := rfl

theorem mergeFactsAux_shape (facts : List RemoteResult) (L : List Str) :
    mergeFactsAux facts (withSynthKeys 1 L) =
      withSynthKeys 1 (L ++ acceptedFacts facts) := by
  induction facts generalizing L with
  | nil => simp [mergeFactsAux, acceptedFacts]
  | cons f rest ih =>
    cases f with
    | none =>
      rw [mergeFactsAux_cons_none, ih L]
      simp [acceptedFacts]
    | some t =>
      by_cases hc : (!t.isEmpty && looksLikePreference t) = true
      · have hlk : looksLikePreference t = true := by
          simp only [Bool.and_eq_true] at hc
          exact hc.2
        have hkey : synthKey ((withSynthKeys 1 L).length + 1) ∉
            dictKeys (withSynthKeys 1 L) := by
          intro hmem
          obtain ⟨i, hi, hx⟩ := mem_dictKeys_withSynthKeys hmem
          have := synthKey_injective hx
          rw [length_withSynthKeys] at this
          omega
        have hsnoc : withSynthKeys 1 (L ++ [t]) =
            withSynthKeys 1 L ++ [(synthKey (L.length + 1), t)] := by
          rw [withSynthKeys_snoc, Nat.add_comm 1 L.length]
        rw [mergeFactsAux_cons_some, if_pos hc, dictInsert_eq_append _ hkey,
          length_withSynthKeys, ← hsnoc, ih (L ++ [t])]
        simp [acceptedFacts, hlk]
      · have hlk : looksLikePreference t = false := by
          by_cases he : t.isEmpty = true
          · have ht : t = [] := by simpa using he
            rw [ht]
            exact looksLikePreference_nil
          · have he' : t.isEmpty = false := by simpa using he
            rcases Bool.eq_false_or_eq_true (looksLikePreference t) with h | h
            · exact absurd (by simp [h, he']) hc
            · exact h
        rw [mergeFactsAux_cons_some, if_neg hc, ih L]
        simp [acceptedFacts, hlk]

theorem mergeFacts_eq_withSynthKeys (results : List RemoteResult) :
    mergeFacts results = withSynthKeys 1 (acceptedFacts results) := by
  have h := mergeFactsAux_shape results []
  simpa [mergeFacts, withSynthKeys] using h

theorem keysNodup_mergeFacts (results : List RemoteResult) :
    keysNodup (mergeFacts results) := by
  rw [mergeFacts_eq_withSynthKeys]
  exact keysNodup_withSynthKeys 1 _

/-- Claim C7: during the merge pass of `load_from_memory_bank`, a retrieved
fact is accepted exactly when its text contains (case-insensitively) one of
the keywords "prefer", "style", "casual", "formal" (an absent or empty text
matches none of them), and the i-th accepted fact, counting in retrieval
order from 1, is stored under the synthetic key `pref_i` — i.e.
`pref_{count+1}` where `count` is the number of facts accepted so far in
the current merge pass. -/
theorem merge_pass_filter_and_keys (results : List RemoteResult) :
    mergeFacts results =
      withSynthKeys 1 ((results.filterMap id).filter looksLikePreference) :=
  mergeFacts_eq_withSynthKeys results

/-- Claim C1 as stated is false: the merge in `load_from_memory_bank` uses
`dict.update`, which does overwrite an existing local key when it collides
with a generated synthetic key.  From the single local entry
`{"pref_1": "old"}` and one retrieved fact containing "prefer", after sync
the key `pref_1` no longer holds its original value. -/
theorem sync_overwrites_colliding_key_counterexample :
    dictGet ((load_from_memory_bank
        ⟨[(("pref_1".data), ("old".data))], .absent, false, true, true, ("local_file".data)⟩
        (.ok [some ("prefer warm layers".data)])).1.preferences) ("pref_1".data) ≠
      some ("old".data) := by
  decide

/-- Claim C1, amended: the merge is additive except on key collision —
every local entry whose key is not among the synthetic keys assigned in
this merge pass survives with its original value, and every merged fact is
present under its synthetic key afterwards.  (A local key of the form
`pref_i`, for `i` up to the number of accepted facts, is overwritten, per
the counterexample.)  In particular, from `{"style": "casual"}` and one
retrieved "prefer" fact, both the original entry and the new
synthetic-keyed entry are present after sync. -/
theorem sync_additive_noncolliding (st : PMState) (results : List RemoteResult) (k v : Str)
    (huv : st.use_vertex_ai = true) (hhs : st.has_memory_service = true)
    (hk : dictGet st.preferences k = some v)
    (hfresh : k ∉ dictKeys (mergeFacts results)) :
    dictGet ((load_from_memory_bank st (.ok results)).1.preferences) k = some v ∧
    ∀ k' v', dictGet (mergeFacts results) k' = some v' →
      dictGet ((load_from_memory_bank st (.ok results)).1.preferences) k' = some v' := by
  by_cases hm : (mergeFacts results).isEmpty = true
  · have hnil : mergeFacts results = [] := by simpa using hm
    have hload : (load_from_memory_bank st (.ok results)).1 = st := by
      simp [load_from_memory_bank, huv, hhs, hm]
    refine ⟨by rw [hload]; exact hk, ?_⟩
    intro k' v' hk'
    rw [hnil] at hk'
    simp [dictGet] at hk'
  · have hload : (load_from_memory_bank st (.ok results)).1.preferences =
        dictUpdate st.preferences (mergeFacts results) := by
      simp [load_from_memory_bank, huv, hhs, hm]
    constructor
    · rw [hload, dictGet_dictUpdate_not_mem _ _ _ hfresh]
      exact hk
    · intro k' v' hk'
      rw [hload]
      exact dictGet_dictUpdate_mem _ _ _ _ (keysNodup_mergeFacts results) hk'

/-- Witness for the amended C1: the scenario from the spec — local entry
`{"style": "casual"}`, one retrieved fact containing "prefer"; after sync
both the original entry and the synthetic-keyed entry are present. -/
theorem sync_additive_noncolliding_witness :
    dictGet ((load_from_memory_bank
        ⟨[(("style".data), ("casual".data))], .absent, false, true, true, ("local_file".data)⟩
        (.ok [some ("prefers warm layers".data)])).1.preferences) ("style".data) =
      some ("casual".data) ∧
    dictGet ((load_from_memory_bank
        ⟨[(("style".data), ("casual".data))], .absent, false, true, true, ("local_file".data)⟩
        (.ok [some ("prefers warm layers".data)])).1.preferences) ("pref_1".data) =
      some ("prefers warm layers".data) :=
  ⟨(sync_additive_noncolliding
      ⟨[(("style".data), ("casual".data))], .absent, false, true, true, ("local_file".data)⟩
      [some ("prefers warm layers".data)] ("style".data) ("casual".data)
      (by decide) (by decide) (by decide) (by decide)).1,
   (sync_additive_noncolliding
      ⟨[(("style".data), ("casual".data))], .absent, false, true, true, ("local_file".data)⟩
      [some ("prefers warm layers".data)] ("style".data) ("casual".data)
      (by decide) (by decide) (by decide) (by decide)).2 ("pref_1".data)
      ("prefers warm layers".data) (by decide)⟩

/-! ## Round trip of the JSON text layer -/

theorem hexVal_hexDigit {d : Nat} (h : d < 16) : hexVal (hexDigit d) = some d := by
  interval_cases d <;> decide

theorem hex4_hex4Enc {n : Nat} (h : n < 65536) :
    hex4 (hexDigit (n / 4096 % 16)) (hexDigit (n / 256 % 16)) (hexDigit (n / 16 % 16))
      (hexDigit (n % 16)) = some n := by
  have ha := hexVal_hexDigit (show n / 4096 % 16 < 16 by omega)
  have hb := hexVal_hexDigit (show n / 256 % 16 < 16 by omega)
  have hc := hexVal_hexDigit (show n / 16 % 16 < 16 by omega)
  have hd := hexVal_hexDigit (show n % 16 < 16 by omega)
  simp [hex4, ha, hb, hc, hd]
  omega

theorem skipWs_cons (c : Char) (s : Str) :
    skipWs (c :: s) = if c = ' ' ∨ c = '\n' ∨ c = '\t' ∨ c = '\r' then skipWs s else c :: s := by
  rw [skipWs.eq_def]

theorem parseJStringBodyFuel_succ (fuel : Nat) (c : Char) (rest : Str) :
    parseJStringBodyFuel (fuel + 1) (c :: rest) =
      if c = '"' then some ([], rest)
      else if c = '\\' then
        match decodeEscape rest with
        | none => none
        | some (ch, r) => consParsed ch (parseJStringBodyFuel fuel r)
      else if c.toNat < 32 then none
      else consParsed c (parseJStringBodyFuel fuel rest) := by
  rw [parseJStringBodyFuel.eq_def]

theorem decodeEscape_u (r : Str) : decodeEscape ('u' :: r) = decodeUEscape r := by
  simp [decodeEscape]

theorem decodeLowSurrogate_enc (n m : Nat) (hm16 : m < 65536)
    (hm : 56320 ≤ m ∧ m ≤ 57343) (s : Str) :
    decodeLowSurrogate n ('\\' :: 'u' :: hexDigit (m / 4096 % 16) :: hexDigit (m / 256 % 16) ::
        hexDigit (m / 16 % 16) :: hexDigit (m % 16) :: s) =
      some (Char.ofNat (65536 + (n - 55296) * 1024 + (m - 56320)), s) := by
  rw [decodeLowSurrogate.eq_def]
  simp only [hex4_hex4Enc hm16, if_true]
  rw [if_pos hm]

theorem decodeUEscape_single (n : Nat) (hn16 : n < 65536)
    (h1 : ¬ (55296 ≤ n ∧ n ≤ 56319)) (h2 : ¬ (56320 ≤ n ∧ n ≤ 57343)) (s : Str) :
    decodeUEscape (hexDigit (n / 4096 % 16) :: hexDigit (n / 256 % 16) ::
        hexDigit (n / 16 % 16) :: hexDigit (n % 16) :: s) = some (Char.ofNat n, s) := by
  rw [decodeUEscape.eq_def]
  simp only [hex4_hex4Enc hn16]
  rw [if_neg h1, if_neg h2]

theorem decodeUEscape_pair (n m : Nat) (hn16 : n < 65536) (hm16 : m < 65536)
    (hn : 55296 ≤ n ∧ n ≤ 56319) (hm : 56320 ≤ m ∧ m ≤ 57343) (s : Str) :
    decodeUEscape (hexDigit (n / 4096 % 16) :: hexDigit (n / 256 % 16) ::
        hexDigit (n / 16 % 16) :: hexDigit (n % 16) :: '\\' :: 'u' ::
        hexDigit (m / 4096 % 16) :: hexDigit (m / 256 % 16) ::
        hexDigit (m / 16 % 16) :: hexDigit (m % 16) :: s) =
      some (Char.ofNat (65536 + (n - 55296) * 1024 + (m - 56320)), s) := by
  rw [decodeUEscape.eq_def]
  simp only [hex4_hex4Enc hn16]
  rw [if_pos hn]
  exact decodeLowSurrogate_enc n m hm16 hm s

theorem parseFuel_encodeChar (c : Char) (s : Str) (fuel : Nat) :
    parseJStringBodyFuel (fuel + 1) (encodeChar c ++ s) =
      consParsed c (parseJStringBodyFuel fuel s) := by
  have hvalid : c.toNat < 55296 ∨ (57343 < c.toNat ∧ c.toNat < 1114112) := c.valid
  unfold encodeChar
  split_ifs with h1 h2 h3 h4 h5 h6 h7 h8 h9
  · subst h1
    rw [show (['\\', '"'] : Str) ++ s = '\\' :: '"' :: s from rfl, parseJStringBodyFuel_succ]
    simp [decodeEscape]
  · subst h2
    rw [show (['\\', '\\'] : Str) ++ s = '\\' :: '\\' :: s from rfl, parseJStringBodyFuel_succ]
    simp [decodeEscape]
  · subst h3
    rw [show (['\\', 'n'] : Str) ++ s = '\\' :: 'n' :: s from rfl, parseJStringBodyFuel_succ]
    simp [decodeEscape]
  · subst h4
    rw [show (['\\', 'r'] : Str) ++ s = '\\' :: 'r' :: s from rfl, parseJStringBodyFuel_succ]
    simp [decodeEscape]
  · subst h5
    rw [show (['\\', 't'] : Str) ++ s = '\\' :: 't' :: s from rfl, parseJStringBodyFuel_succ]
    simp [decodeEscape]
  · have hc : c = Char.ofNat 8 := by rw [← Char.ofNat_toNat c, h6]
    subst hc
    rw [show (['\\', 'b'] : Str) ++ s = '\\' :: 'b' :: s from rfl, parseJStringBodyFuel_succ]
    simp [decodeEscape]
  · have hc : c = Char.ofNat 12 := by rw [← Char.ofNat_toNat c, h7]
    subst hc
    rw [show (['\\', 'f'] : Str) ++ s = '\\' :: 'f' :: s from rfl, parseJStringBodyFuel_succ]
    simp [decodeEscape]
  · have hs1 : ¬ (55296 ≤ c.toNat ∧ c.toNat ≤ 56319) := by omega
    have hs2 : ¬ (56320 ≤ c.toNat ∧ c.toNat ≤ 57343) := by omega
    simp only [hex4Enc, List.cons_append, List.nil_append]
    rw [parseJStringBodyFuel_succ, if_neg (show ¬ ('\\' : Char) = '"' by decide),
      if_pos (rfl : ('\\' : Char) = '\\'), decodeEscape_u,
      decodeUEscape_single c.toNat h9 hs1 hs2 s, Char.ofNat_toNat]
  · have hhi : 55296 + (c.toNat - 65536) / 1024 < 65536 := by omega
    have hlo : 56320 + (c.toNat - 65536) % 1024 < 65536 := by omega
    have hc1 : 55296 ≤ 55296 + (c.toNat - 65536) / 1024 ∧
        55296 + (c.toNat - 65536) / 1024 ≤ 56319 := by omega
    have hc2 : 56320 ≤ 56320 + (c.toNat - 65536) % 1024 ∧
        56320 + (c.toNat - 65536) % 1024 ≤ 57343 := by omega
    simp only [hex4Enc, List.cons_append, List.nil_append, List.append_assoc]
    rw [parseJStringBodyFuel_succ, if_neg (show ¬ ('\\' : Char) = '"' by decide),
      if_pos (rfl : ('\\' : Char) = '\\'), decodeEscape_u,
      decodeUEscape_pair (55296 + (c.toNat - 65536) / 1024) (56320 + (c.toNat - 65536) % 1024)
        hhi hlo hc1 hc2 s,
      show 65536 + (55296 + (c.toNat - 65536) / 1024 - 55296) * 1024 +
          (56320 + (c.toNat - 65536) % 1024 - 56320) = c.toNat from by omega,
      Char.ofNat_toNat]
  · have hlt : ¬ c.toNat < 32 := by omega
    rw [show ([c] : Str) ++ s = c :: s from rfl, parseJStringBodyFuel_succ]
    simp [h1, h2, hlt]

theorem escapeString_nil : escapeString [] = [] := rfl

theorem escapeString_cons (c : Char) (k : Str) :
    escapeString (c :: k) = encodeChar c ++ escapeString k := by
  simp [escapeString]

theorem one_le_length_encodeChar (c : Char) : 1 ≤ (encodeChar c).length := by
  unfold encodeChar
  split_ifs <;> simp [hex4Enc]

theorem le_length_escapeString (k : Str) : k.length ≤ (escapeString k).length := by
  induction k with
  | nil => simp [escapeString]
  | cons c k' ih =>
    rw [escapeString_cons]
    have := one_le_length_encodeChar c
    simp only [List.length_append, List.length_cons]
    omega

theorem parseFuel_escapeString (k : Str) (rest : Str) (fuel : Nat) (h : k.length ≤ fuel) :
    parseJStringBodyFuel (fuel + 1) (escapeString k ++ '"' :: rest) = some (k, rest) := by
  induction k generalizing fuel with
  | nil =>
    rw [escapeString_nil, List.nil_append, parseJStringBodyFuel_succ, if_pos rfl]
  | cons c k' ih =>
    obtain ⟨f, rfl⟩ : ∃ f, fuel = f + 1 := ⟨fuel - 1, by simp at h; omega⟩
    rw [escapeString_cons, List.append_assoc, parseFuel_encodeChar,
      ih f (by simp at h; omega)]
    rfl

theorem parseJString_escapeString (k rest : Str) :
    parseJString (escapeString k ++ '"' :: rest) = some (k, rest) := by
  unfold parseJString
  have h1 := le_length_escapeString k
  have hlen : k.length ≤ (escapeString k ++ '"' :: rest).length := by
    simp only [List.length_append, List.length_cons]
    omega
  exact parseFuel_escapeString k rest _ hlen

theorem skipWs_drop {c : Char} (h : c = ' ' ∨ c = '\n' ∨ c = '\t' ∨ c = '\r') (s : Str) :
    skipWs (c :: s) = skipWs s := by
  rw [skipWs_cons, if_pos h]

theorem skipWs_stop {c : Char} (h : ¬ (c = ' ' ∨ c = '\n' ∨ c = '\t' ∨ c = '\r')) (s : Str) :
    skipWs (c :: s) = c :: s := by
  rw [skipWs_cons, if_neg h]

theorem entryChunk_append (k v t u : Str) :
    entryChunk k v t ++ u = entryChunk k v (t ++ u) := by
  simp [entryChunk]

theorem skipWs_entryChunk (k v t : Str) :
    skipWs (entryChunk k v t) =
      '"' :: (escapeString k ++ '"' :: ':' :: ' ' :: '"' :: (escapeString v ++ '"' :: t)) := by
  unfold entryChunk
  rw [skipWs_drop (by decide), skipWs_drop (by decide), skipWs_drop (by decide),
    skipWs_stop (by decide)]

theorem le_length_dumpMembers (m : List (Str × Str)) :
    m.length ≤ (dumpMembers m).length := by
  induction m with
  | nil => simp [dumpMembers]
  | cons kv rest ih =>
    obtain ⟨k, v⟩ := kv
    cases rest with
    | nil => simp [dumpMembers, entryChunk]
    | cons kv2 rest2 =>
      rw [show dumpMembers ((k, v) :: kv2 :: rest2) =
        entryChunk k v (',' :: dumpMembers (kv2 :: rest2)) from rfl]
      simp only [entryChunk, List.length_cons, List.length_append] at ih ⊢
      omega

/-- The members of a dumped mapping, as JSON object members. -/
def strJMembers (m : List (Str × Str)) : List (Str × Jval) :=
  m.map (fun kv => (kv.1, Jval.str kv.2))

theorem parseJValueFuel_succ (fuel : Nat) (s : Str) :
    parseJValueFuel (fuel + 1) s =
      (match skipWs s with
       | [] => none
       | c :: r =>
         if c = '"' then (parseJString r).map (fun p => (Jval.str p.1, p.2))
         else if c = '\x7b' then
           match skipWs r with
           | [] => none
           | c2 :: r2 =>
             if c2 = '\x7d' then some (.obj [], r2)
             else (objMembersLoop (parseJValueFuel fuel) fuel (c2 :: r2) []).map
               (fun p => (Jval.obj p.1, p.2))
         else if c = '[' then
           match skipWs r with
           | [] => none
           | c2 :: r2 =>
             if c2 = ']' then some (.arr [], r2)
             else (arrItemsLoop (parseJValueFuel fuel) fuel (c2 :: r2) []).map
               (fun p => (Jval.arr p.1, p.2))
         else parseJsonScalar c r) := by
  rw [parseJValueFuel.eq_def]

theorem parseJValueFuel_strVal (fuel : Nat) (v tail : Str) :
    parseJValueFuel (fuel + 1) (' ' :: '"' :: (escapeString v ++ '"' :: tail)) =
      some (Jval.str v, tail) := by
  rw [parseJValueFuel_succ, skipWs_drop (by decide), skipWs_stop (by decide)]
  dsimp only
  rw [if_pos rfl, parseJString_escapeString]
  rfl

theorem objMembersLoop_entry (F fuel : Nat) (acc : List (Str × Jval)) (k v tail : Str) :
    objMembersLoop (parseJValueFuel (F + 1)) (fuel + 1)
      ('"' :: (escapeString k ++ '"' :: ':' :: ' ' :: '"' ::
        (escapeString v ++ '"' :: tail))) acc =
      (match skipWs tail with
       | [] => none
       | c5 :: r5 =>
         if c5 = ',' then
           objMembersLoop (parseJValueFuel (F + 1)) fuel (skipWs r5)
             (dictInsert acc k (Jval.str v))
         else if c5 = '\x7d' then some (dictInsert acc k (Jval.str v), r5)
         else none) := by
  rw [objMembersLoop.eq_def]
  simp only [parseJString_escapeString, skipWs_stop (show ¬ ((':' : Char) = ' ' ∨ ':' = '\n' ∨
    ':' = '\t' ∨ ':' = '\r') by decide), parseJValueFuel_strVal]
  simp

theorem objMembersLoop_dump (m : List (Str × Str)) (hm : m ≠ []) :
    ∀ (F fuel : Nat) (acc : List (Str × Jval)), m.length ≤ fuel →
    objMembersLoop (parseJValueFuel (F + 1)) (fuel + 1)
        (skipWs (dumpMembers m ++ ['\x7d'])) acc =
      some (dictUpdate acc (strJMembers m), []) := by
  induction m with
  | nil => contradiction
  | cons kv rest ih =>
    obtain ⟨k, v⟩ := kv
    intro F fuel acc hfuel
    cases rest with
    | nil =>
      rw [show dumpMembers [(k, v)] = entryChunk k v ['\n'] from rfl, entryChunk_append,
        skipWs_entryChunk]
      rw [show (['\n'] : Str) ++ ['\x7d'] = '\n' :: '\x7d' :: [] from rfl]
      rw [objMembersLoop_entry, skipWs_drop (by decide), skipWs_stop (by decide)]
      simp [dictUpdate, strJMembers]
    | cons kv2 rest2 =>
      rw [show dumpMembers ((k, v) :: kv2 :: rest2) =
        entryChunk k v (',' :: dumpMembers (kv2 :: rest2)) from rfl, entryChunk_append,
        skipWs_entryChunk]
      rw [show ((',' :: dumpMembers (kv2 :: rest2)) : Str) ++ ['\x7d'] =
        ',' :: (dumpMembers (kv2 :: rest2) ++ ['\x7d']) from by simp]
      rw [objMembersLoop_entry, skipWs_stop (by decide)]
      obtain ⟨f, rfl⟩ : ∃ f, fuel = f + 1 := ⟨fuel - 1, by simp at hfuel; omega⟩
      have hne : (kv2 :: rest2 : List (Str × Str)) ≠ [] := by simp
      have hlen : (kv2 :: rest2 : List (Str × Str)).length ≤ f := by
        simp at hfuel ⊢
        omega
      simp only [reduceIte]
      rw [ih hne F f (dictInsert acc k (Jval.str v)) hlen]
      rfl

theorem parseJson_dump (m : List (Str × Str)) :
    parseJson (jsonDumpObj m) = some (.obj (dictUpdate [] (strJMembers m))) := by
  cases m with
  | nil => rfl
  | cons kv rest =>
    obtain ⟨k, v⟩ := kv
    have hT : dumpMembers ((k, v) :: rest) ++ ['\x7d'] =
        entryChunk k v ((match rest with
          | [] => ['\n']
          | _ :: _ => ',' :: dumpMembers rest) ++ ['\x7d']) := by
      rw [show dumpMembers ((k, v) :: rest) = entryChunk k v (match rest with
        | [] => ['\n'] | _ :: _ => ',' :: dumpMembers rest) from rfl, entryChunk_append]
    have hlen : ((k, v) :: rest : List (Str × Str)).length ≤
        (dumpMembers ((k, v) :: rest) ++ ['\x7d']).length := by
      have h := le_length_dumpMembers ((k, v) :: rest)
      simp only [List.length_cons, List.length_append] at h ⊢
      omega
    have hval : parseJValueFuel
        (('\x7b' :: (dumpMembers ((k, v) :: rest) ++ ['\x7d'])).length + 1)
        ('\x7b' :: (dumpMembers ((k, v) :: rest) ++ ['\x7d'])) =
        some (.obj (dictUpdate [] (strJMembers ((k, v) :: rest))), []) := by
      rw [parseJValueFuel_succ, skipWs_stop (by decide)]
      dsimp only
      rw [if_neg (by decide : ¬ ('\x7b' : Char) = '"'), if_pos rfl]
      simp only [List.length_cons]
      have hp := objMembersLoop_dump ((k, v) :: rest) (by simp)
        ((dumpMembers ((k, v) :: rest) ++ ['\x7d']).length)
        ((dumpMembers ((k, v) :: rest) ++ ['\x7d']).length) [] hlen
      rw [hT] at hp ⊢
      rw [skipWs_entryChunk] at hp ⊢
      dsimp only
      rw [if_neg (by decide : ¬ ('"' : Char) = '\x7d'), hp]
      rfl
    rw [show jsonDumpObj ((k, v) :: rest) =
      '\x7b' :: (dumpMembers ((k, v) :: rest) ++ ['\x7d']) from rfl]
    unfold parseJson
    rw [hval]
    dsimp only
    rfl

theorem dictKeys_strJMembers (m : List (Str × Str)) :
    dictKeys (strJMembers m) = dictKeys m := by
  unfold dictKeys strJMembers
  rw [List.map_map]
  rfl

theorem keysNodup_strJMembers {m : List (Str × Str)} (hnd : keysNodup m) :
    keysNodup (strJMembers m) := by
  unfold keysNodup
  rw [dictKeys_strJMembers]
  exact hnd

theorem strMembers_strJMembers (m : List (Str × Str)) :
    strMembers (strJMembers m) = some m := by
  induction m with
  | nil => rfl
  | cons kv rest ih =>
    obtain ⟨k, v⟩ := kv
    rw [show strJMembers ((k, v) :: rest) = (k, Jval.str v) :: strJMembers rest from rfl]
    rw [show strMembers ((k, Jval.str v) :: strJMembers rest) =
      (strMembers (strJMembers rest)).map (fun m => (k, v) :: m) from rfl]
    rw [ih]
    rfl

theorem parseJson_jsonDumpObj {m : List (Str × Str)} (hnd : keysNodup m) :
    parseJson (jsonDumpObj m) = some (.obj (strJMembers m)) := by
  rw [parseJson_dump, dictUpdate_nil_left _ (keysNodup_strJMembers hnd)]

/-- Claim C6: for every mapping of string keys to string values (at most
1000 entries) held in the backing file, `save(load())` is idempotent — in
fact saving any well-formed mapping and loading it back yields the same
key/value pairs, so a freshly loaded set written back reproduces the
original mapping on the next load. -/
theorem save_load_round_trip (m : List (Str × Str)) (fs : FileState)
    (hnd : keysNodup m) (hlen : m.length ≤ 1000) :
    load_preferences_from_file (save_preferences_to_file m true fs) =
      .ok (.mapping m) := by
  unfold save_preferences_to_file
  rw [if_pos rfl]
  unfold load_preferences_from_file
  dsimp only
  rw [parseJson_jsonDumpObj hnd]
  dsimp only
  rw [show asStrObj (Jval.obj (strJMembers m)) = some m from by
    rw [show asStrObj (Jval.obj (strJMembers m)) = strMembers (strJMembers m) from rfl,
      strMembers_strJMembers]]

/-- Witness for C6 at a concrete two-entry mapping. -/
theorem save_load_round_trip_witness :
    (dictKeys [(("style".data), ("casual".data)), (("temp_preference".data),
      ("prefers Celsius".data))]).Nodup ∧
    load_preferences_from_file (save_preferences_to_file
      [(("style".data), ("casual".data)), (("temp_preference".data),
        ("prefers Celsius".data))] true .absent) =
      .ok (.mapping [(("style".data), ("casual".data)), (("temp_preference".data),
        ("prefers Celsius".data))]) :=
  ⟨by unfold dictKeys; decide,
   save_load_round_trip [(("style".data), ("casual".data)), (("temp_preference".data),
     ("prefers Celsius".data))] .absent (by unfold keysNodup dictKeys; decide) (by decide)⟩

/-- Claim C5: `load()` returns the empty mapping for an absent file, for an
`IOError` on open/read, and for text that is not valid JSON; but the claim
fails on two file states.  A file whose bytes do not decode as text makes
`open(...).read()` raise `UnicodeDecodeError` (a `ValueError`), which the
`except (json.JSONDecodeError, IOError)` clause does not catch, so
`_load_preferences_from_file` propagates it instead of never raising.  And
a file holding valid JSON that is not a string-to-string object (such as
`[1, 2]`) makes `json.load` succeed, and the function returns that
non-mapping value verbatim rather than the empty mapping. -/
theorem load_file_error_handling :
    load_preferences_from_file .absent = .ok (.mapping []) ∧
    load_preferences_from_file .unreadable = .ok (.mapping []) ∧
    (∀ raw, parseJson raw = none →
      load_preferences_from_file (.content raw) = .ok (.mapping [])) ∧
    load_preferences_from_file .undecodable = .error .unicodeDecodeError ∧
    (∀ raw v, parseJson raw = some v → asStrObj v = none →
      load_preferences_from_file (.content raw) = .ok (.other v)) := by
  refine ⟨rfl, rfl, ?_, rfl, ?_⟩
  · intro raw h
    unfold load_preferences_from_file
    dsimp only
    rw [h]
  · intro raw v h1 h2
    unfold load_preferences_from_file
    dsimp only
    rw [h1]
    dsimp only
    rw [h2]

/-- Witness for C5: a concrete corrupt (non-JSON) file content, and a
concrete valid-JSON-but-non-mapping file content. -/
theorem load_file_error_handling_witness :
    parseJson ("corrupt".data) = none ∧
    load_preferences_from_file (.content ("corrupt".data)) = .ok (.mapping []) ∧
    parseJson ("[1, 2]".data) = some (.arr [.num ("1".data), .num ("2".data)]) ∧
    load_preferences_from_file (.content ("[1, 2]".data)) =
      .ok (.other (.arr [.num ("1".data), .num ("2".data)])) :=
  ⟨rfl, load_file_error_handling.2.2.1 ("corrupt".data) rfl, rfl,
   load_file_error_handling.2.2.2.2 ("[1, 2]".data) _ rfl rfl⟩
